import Mathlib

/-!
Verification of the `nightfly` HTTP client library (lunatic-based fork of
reqwest) against its natural-language specification.

The development shallowly embeds the response parser
(`src/lunatic_impl/decoder.rs`), the content-encoding detector
(`Decoder::detect` / `Decoder::detect_encoding`), the response accessors
(`src/lunatic_impl/response.rs`) and the connection constructor
(`src/lunatic_impl/http_stream.rs`).  Bytes are `Nat` (ASCII codes), byte
buffers are `List Nat`, and the TCP stream is a list of read segments: each
`read` call delivers a prefix of the front segment (at most the requested
buffer size), and an exhausted stream (or an empty segment, modelling a
closed socket) makes `read` return zero bytes, exactly like
`std::io::Read::read` on a `TcpStream`.

Rust `usize` subtraction in release mode wraps modulo `2 ^ 64`; that wrapping
is modelled explicitly by `usub`.  A Rust panic (slice index out of range,
`unwrap` on `Err`, capacity overflow) is modelled by the `crash` outcome.

The redirect engine lives in `src/lunatic_impl/client.rs` and
`src/redirect.rs`, which are not part of the provided sources; those parts
are modelled from the specification text and are marked as such.
-/

/-! ## Byte-level constants (ASCII) -/

/-- The lowercase header name `content-length`. -/
def contentLengthK : List Nat := [99, 111, 110, 116, 101, 110, 116, 45, 108, 101, 110, 103, 116, 104]

/-- The lowercase header name `transfer-encoding`. -/
def transferEncodingK : List Nat := [116, 114, 97, 110, 115, 102, 101, 114, 45, 101, 110, 99, 111, 100, 105, 110, 103]

/-- The lowercase header name `content-encoding`. -/
def contentEncodingK : List Nat := [99, 111, 110, 116, 101, 110, 116, 45, 101, 110, 99, 111, 100, 105, 110, 103]

/-- The header value `chunked`. -/
def chunkedV : List Nat := [99, 104, 117, 110, 107, 101, 100]

/-- The encoding token `gzip`. -/
def gzipV : List Nat := [103, 122, 105, 112]

/-- The encoding token `br`. -/
def brV : List Nat := [98, 114]

/-- The encoding token `deflate`. -/
def deflateV : List Nat := [100, 101, 102, 108, 97, 116, 101]

/-! ## Machine-integer helpers -/

/-- `2 ^ 64`, the modulus of Rust's 64-bit `usize`. -/
def U64 : Nat := 2 ^ 64

/-- Wrapping subtraction on `usize` (Rust release-mode `a - b`). -/
def usub (a b : Nat) : Nat := if b ≤ a then a - b else a + U64 - b

/-! ## The byte-stream model -/

/-- A TCP stream modelled as the list of segments successive `read` calls
will deliver.  An empty segment (and the end of the list) models a closed
stream: `read` returns `0`. -/
abbrev NetStream := List (List Nat)

/-- One `read(&mut buf)` with a buffer of size `bufsize`: delivers at most
`bufsize` bytes from the front segment; the undelivered remainder of the
segment stays at the front of the stream. -/
def netRead (s : NetStream) (bufsize : Nat) : List Nat × NetStream :=
  match s with
  | [] => ([], [])
  | seg :: rest =>
    let chunk := seg.take bufsize
    let rem := seg.drop bufsize
    (chunk, if rem = [] then rest else rem :: rest)

/-- Total number of bytes the stream can still deliver before a read hits an
empty segment or the end of the stream. -/
def netAvail : NetStream → Nat
  | [] => 0
  | seg :: rest => if seg = [] then 0 else seg.length + netAvail rest

/-- `read_exact` with a buffer of `k` bytes: repeatedly reads until the
buffer is full; a zero-byte read before that yields an error (`none`),
mirroring `std::io::Read::read_exact`. -/
def readExactSegs : NetStream → Nat → Option (List Nat × NetStream)
  | segs, 0 => some ([], segs)
  | [], _ + 1 => none
  | seg :: rest, k + 1 =>
    if seg = [] then none
    else if k + 1 ≤ seg.length then
      let rem := seg.drop (k + 1)
      some (seg.take (k + 1), if rem = [] then rest else rem :: rest)
    else
      match readExactSegs rest (k + 1 - seg.length) with
      | none => none
      | some (bs, segs') => some (seg ++ bs, segs')

/-! ## Model of the external `httparse` crate

`parse_response` delegates head parsing to `httparse::Response::parse` and
chunk-size parsing to `httparse::parse_chunk_size`.  `httparse` is an
external dependency (not part of this repository), so the two functions are
modelled here from its documented behaviour: the head parse completes
exactly when the `CRLF CRLF` terminator is present and the status line and
header lines tokenize, and the chunk-size parse is the hex-size/extension
state machine of RFC 7230 §4.1. -/

/-- Result of `httparse::parse_chunk_size`. -/
inductive ChunkStatus where
  | complete (idx : Nat) (size : Nat)
  | partialC
  | invalid
deriving DecidableEq, Repr

/-- State machine of `httparse::parse_chunk_size`: `pos` is the number of
consumed bytes, `size` the accumulated hex value, `ics` whether we are still
inside the chunk-size digits, `inExt` whether we are inside a chunk
extension, `count` the number of hex digits consumed (more than 16 digits is
an overflow error). -/
def parseChunkSizeAux : List Nat → Nat → Nat → Bool → Bool → Nat → ChunkStatus
  | [], _, _, _, _, _ => .partialC
  | b :: rest, pos, size, ics, inExt, count =>
    if (48 ≤ b ∧ b ≤ 57) ∧ ics = true then
      if count > 15 then .invalid
      else parseChunkSizeAux rest (pos + 1) (size * 16 + (b - 48)) ics inExt (count + 1)
    else if (97 ≤ b ∧ b ≤ 102) ∧ ics = true then
      if count > 15 then .invalid
      else parseChunkSizeAux rest (pos + 1) (size * 16 + (b - 87)) ics inExt (count + 1)
    else if (65 ≤ b ∧ b ≤ 70) ∧ ics = true then
      if count > 15 then .invalid
      else parseChunkSizeAux rest (pos + 1) (size * 16 + (b - 55)) ics inExt (count + 1)
    else if b = 13 then
      if rest = [] then .partialC
      else if rest.take 1 = [10] then .complete (pos + 2) size
      else .invalid
    else if b = 59 ∧ inExt = false then
      parseChunkSizeAux rest (pos + 1) size false true count
    else if (b = 9 ∨ b = 32) ∧ inExt = false ∧ ics = false then
      parseChunkSizeAux rest (pos + 1) size ics inExt count
    else if (b = 9 ∨ b = 32) ∧ ics = true then
      parseChunkSizeAux rest (pos + 1) size false inExt count
    else if inExt = true then
      parseChunkSizeAux rest (pos + 1) size ics inExt count
    else .invalid

/-- `httparse::parse_chunk_size` on a byte slice. -/
def parseChunkSize (buf : List Nat) : ChunkStatus :=
  parseChunkSizeAux buf 0 0 true false 0

/-- Index of the first occurrence of the head terminator `\r\n\r\n`. -/
def findTerm : List Nat → Option Nat
  | [] => none
  | b :: rest =>
    if b = 13 ∧ rest.take 3 = [10, 13, 10] then some 0
    else (findTerm rest).map (· + 1)

/-- Split a byte list at each `\r\n` separator. -/
def splitCRLF : List Nat → List (List Nat)
  | [] => [[]]
  | 13 :: 10 :: rest => [] :: splitCRLF rest
  | b :: rest =>
    match splitCRLF rest with
    | [] => [[b]]
    | l :: ls => (b :: l) :: ls

/-- Parse the status line `HTTP/1.<v> <code> [reason]`, returning the minor
version and the numeric status code. -/
def parseStatusLine : List Nat → Option (Nat × Nat)
  | 72 :: 84 :: 84 :: 80 :: 47 :: 49 :: 46 :: v :: 32 :: c1 :: c2 :: c3 :: rest =>
    if (v = 48 ∨ v = 49) ∧ (48 ≤ c1 ∧ c1 ≤ 57) ∧ (48 ≤ c2 ∧ c2 ≤ 57) ∧ (48 ≤ c3 ∧ c3 ≤ 57)
        ∧ (rest = [] ∨ rest.head? = some 32) then
      some (v - 48, (c1 - 48) * 100 + (c2 - 48) * 10 + (c3 - 48))
    else none
  | _ => none

/-- Split a header line at the first `:`. -/
def splitColon : List Nat → Option (List Nat × List Nat)
  | [] => none
  | 58 :: rest => some ([], rest)
  | b :: rest => (splitColon rest).map (fun p => (b :: p.1, p.2))

/-- Parse one header line into a raw name/value pair; the value has leading
spaces and horizontal tabs stripped. -/
def parseHeaderLine (l : List Nat) : Option (List Nat × List Nat) :=
  match splitColon l with
  | none => none
  | some (name, rest) =>
    if name = [] then none
    else some (name, rest.dropWhile (fun b => b = 32 || b = 9))

/-- Parse all header lines. -/
def parseHeaderLines : List (List Nat) → Option (List (List Nat × List Nat))
  | [] => some []
  | l :: ls =>
    match parseHeaderLine l with
    | none => none
    | some p => (parseHeaderLines ls).map (p :: ·)

/-- `MAX_HEADERS` from `decoder.rs`: size of the `httparse` header array. -/
def MAX_HEADERS : Nat := 128

/-- Result of `httparse::Response::parse`. -/
inductive HeadResult where
  | complete (version : Nat) (code : Nat) (headers : List (List Nat × List Nat)) (offset : Nat)
  | partialH
  | errH
deriving DecidableEq, Repr

/-- Model of `httparse::Response::parse` with a `MAX_HEADERS`-slot header
array: complete exactly when the `\r\n\r\n` terminator is present and the
status line and at most `MAX_HEADERS` header lines tokenize; `offset` is the
index just past the terminator. -/
def parseHead (buf : List Nat) : HeadResult :=
  match findTerm buf with
  | none => .partialH
  | some i =>
    match splitCRLF (buf.take i) with
    | [] => .errH
    | sl :: hls =>
      match parseStatusLine sl with
      | none => .errH
      | some (v, c) =>
        if hls.length > MAX_HEADERS then .errH
        else
          match parseHeaderLines hls with
          | none => .errH
          | some hs => .complete v c hs (i + 4)

/-! ## Data model of `decoder.rs` / `response.rs` -/

/-- `MAX_REQUEST_SIZE` from `decoder.rs` (the spec calls it
`MAX_RESPONSE_SIZE`): 10 MiB. -/
def MAX_REQUEST_SIZE : Nat := 10 * 1024 * 1024

/-- `REQUEST_BUFFER_SIZE` from `decoder.rs`: the 4 KiB read chunk. -/
def REQUEST_BUFFER_SIZE : Nat := 4096

/-- `ParseResponseError` from `decoder.rs`.  (`missingChunkSeparator` is
declared in the source but never constructed.) -/
inductive ParseResponseError where
  | tcpStreamClosed
  | tcpStreamClosedWithoutData
  | httpParseError
  | responseTooLarge
  | unknownCode
  | invalidChunkSize
  | missingChunkSeparator
deriving DecidableEq, Repr

/-- `HttpResponse` from `response.rs`; the `url` is never inspected by the
parser and is kept as an opaque byte list. -/
structure HttpResponse where
  body : List Nat
  status : Nat
  version : Nat
  headers : List (List Nat × List Nat)
  url : List Nat
deriving DecidableEq, Repr

/-- Result of `parse_response`: a response, a `ParseResponseError`, or a
Rust panic (`crash`: out-of-range slice index, `unwrap` of an `Err`). -/
inductive Outcome where
  | ok (r : HttpResponse)
  | err (e : ParseResponseError)
  | crash
deriving DecidableEq, Repr

/-- Result of the chunked-body loop inside `parse_response`. -/
inductive ChunkOutcome where
  | ok (body : List Nat)
  | invalid
  | crash
deriving DecidableEq, Repr

/-- Map `A`–`Z` to `a`–`z`; the `http` crate lower-cases header names when
the builder fold in `parse_response` inserts them into the `HeaderMap`. -/
def lowerByte (b : Nat) : Nat := if 65 ≤ b ∧ b ≤ 90 then b + 32 else b

/-- Lower-case a header name. -/
def lowerBytes (l : List Nat) : List Nat := l.map lowerByte

/-- An `http::HeaderMap` modelled as an ordered list of (lower-cased name,
value) pairs. -/
abbrev HeaderMap := List (List Nat × List Nat)

/-- `HeaderMap::get`: first value for a name. -/
def getFirst (h : HeaderMap) (name : List Nat) : Option (List Nat) :=
  (h.find? (fun p => decide (p.1 = name))).map (·.2)

/-- `HeaderMap::get_all`: all values for a name, in order. -/
def getAll (h : HeaderMap) (name : List Nat) : List (List Nat) :=
  (h.filter (fun p => decide (p.1 = name))).map (·.2)

/-- `HeaderMap::remove`: drop every value for a name. -/
def removeH (h : HeaderMap) (name : List Nat) : HeaderMap :=
  h.filter (fun p => decide (¬ p.1 = name))

/-- `str::parse::<usize>` on a header value: optional leading `+`, then
decimal digits, failing on overflow past `usize::MAX`. -/
def parseUsize (l : List Nat) : Option Nat :=
  let digits := match l with
    | 43 :: rest => rest
    | l => l
  if digits = [] then none
  else if digits.all (fun b => decide (48 ≤ b ∧ b ≤ 57)) then
    let v := digits.foldl (fun a b => a * 10 + (b - 48)) 0
    if v < U64 then some v else none
  else none

/-! ## `parse_response` from `decoder.rs` -/

/-- The head-accumulation loop of `parse_response` (lines 365–401 of
`decoder.rs`): parse, read `REQUEST_BUFFER_SIZE` more bytes on `Partial`,
fail on zero-byte reads and on buffers larger than `MAX_REQUEST_SIZE`.
Returns the head data together with the extended buffer and remaining
stream; `none` means the fuel ran out. -/
def readHead : Nat → List Nat → NetStream →
    Option (Except ParseResponseError (Nat × Nat × List (List Nat × List Nat) × Nat × List Nat × NetStream))
  | 0, _, _ => none
  | fuel + 1, buf, stream =>
    match parseHead buf with
    | .complete v c hs off => some (.ok (v, c, hs, off, buf, stream))
    | .errH => some (.error .httpParseError)
    | .partialH =>
      let r := netRead stream REQUEST_BUFFER_SIZE
      if r.1 = [] then
        if buf = [] then some (.error .tcpStreamClosedWithoutData)
        else some (.error .tcpStreamClosed)
      else
        if (buf ++ r.1).length > MAX_REQUEST_SIZE then some (.error .responseTooLarge)
        else readHead fuel (buf ++ r.1) r.2

/-- The chunked-body loop of `parse_response` (lines 447–482 of
`decoder.rs`), with Rust's wrapping/saturating `usize` arithmetic and slice
bounds checks made explicit; `none` means the fuel ran out. -/
def chunkedLoop : Nat → List Nat → NetStream → Nat → List Nat → Option ChunkOutcome
  | 0, _, _, _, _ => none
  | fuel + 1, buf, stream, co, body =>
    if co > buf.length then some .crash
    else
      match parseChunkSize (buf.drop co) with
      | .invalid => some .invalid
      | .partialC =>
        let r := netRead stream REQUEST_BUFFER_SIZE
        chunkedLoop fuel (buf ++ r.1) r.2 co body
      | .complete idx size =>
        if size = 0 ∧ [13, 10].isPrefixOf (buf.drop (co + idx)) then some (.ok body)
        else
          let missing := size - usub (usub (usub buf.length idx) co) 2
          if missing > 0 then
            let r := netRead stream missing
            chunkedLoop fuel (buf ++ r.1) r.2 co body
          else if co + idx + size > buf.length then some .crash
          else chunkedLoop fuel buf stream (co + idx + size + 2) (body ++ (buf.drop (co + idx)).take size)

/-- `parse_response` from `decoder.rs` (lines 356–504): accumulate the head,
map the status code, fold the headers into a lower-cased `HeaderMap`, then
frame the body by `transfer-encoding: chunked`, `content-length`, or neither.
`none` means the fuel ran out (the source can loop forever on a closed
stream inside the chunked loop). -/
def parse_response (fuel : Nat) (response_buffer : List Nat) (stream : NetStream)
    (url : List Nat) : Option Outcome :=
  match readHead fuel response_buffer stream with
  | none => none
  | some (.error e) => some (.err e)
  | some (.ok (v, code, rawHeaders, offset, buf, stream')) =>
    if code < 100 ∨ 999 < code then some (.err .unknownCode)
    else
      let headers : HeaderMap := rawHeaders.map (fun p => (lowerBytes p.1, p.2))
      let content_length := (getFirst headers contentLengthK).bind parseUsize
      let res0 : HttpResponse :=
        { body := [], status := code, version := v, headers := headers, url := url }
      if getFirst headers transferEncodingK = some chunkedV then
        match chunkedLoop fuel buf stream' offset [] with
        | none => none
        | some (.ok b) => some (.ok { res0 with body := b })
        | some .invalid => some (.err .invalidChunkSize)
        | some .crash => some .crash
      else
        match content_length with
        | some n =>
          if (buf.drop offset).length = n then
            some (.ok { res0 with body := buf.drop offset })
          else
            let rest := usub n (buf.drop offset).length
            match readExactSegs stream' rest with
            | none => some .crash
            | some (bytes, _) => some (.ok { res0 with body := (buf ++ bytes).drop offset })
        | none => some (.ok res0)

/-! ## `Decoder::detect` / `Decoder::detect_encoding` from `decoder.rs`

Embedded with the three decompression features (`gzip`, `brotli`,
`deflate`) compiled in, so `Accepts` has all three flags and the
`cfg`-guarded blocks of `detect` are present in priority order. -/

/-- `Accepts` from `decoder.rs`: which decoders the client enables. -/
structure Accepts where
  gzip : Bool
  brotli : Bool
  deflate : Bool
deriving DecidableEq, Repr

/-- The `Decoder` variants of `decoder.rs` (`Inner::PlainText` and the
pending gzip/brotli/deflate decoders, tagged by `DecoderType`). -/
inductive Decoder where
  | plainText (body : List Nat)
  | gzipD (body : List Nat)
  | brotliD (body : List Nat)
  | deflateD (body : List Nat)
deriving DecidableEq, Repr

/-- `Decoder::detect_encoding`: the token is selected when some
`content-encoding` or `transfer-encoding` value equals it and the first
`content-length` value is not `"0"`; on selection the `content-encoding`
and `content-length` headers are removed.  Returns the flag and the
(possibly mutated) header map. -/
def detect_encoding (headers : HeaderMap) (encoding_str : List Nat) : Bool × HeaderMap :=
  let matched :=
    (getAll headers contentEncodingK).any (fun v => decide (v = encoding_str)) ||
    (getAll headers transferEncodingK).any (fun v => decide (v = encoding_str))
  let is_content_encoded :=
    if matched then
      match getFirst headers contentLengthK with
      | some cl => if cl = [48] then false else true
      | none => true
    else false
  if is_content_encoded then
    (true, removeH (removeH headers contentEncodingK) contentLengthK)
  else (false, headers)

/-- `Decoder::detect`: try gzip, then br, then deflate, each only when its
`Accepts` flag is set; fall back to the plain-text decoder.  Returns the
decoder and the (possibly mutated) header map. -/
def Decoder.detect (headers : HeaderMap) (body : List Nat) (accepts : Accepts) :
    Decoder × HeaderMap :=
  if accepts.gzip = true ∧ (detect_encoding headers gzipV).1 = true then
    (.gzipD body, (detect_encoding headers gzipV).2)
  else if accepts.brotli = true ∧ (detect_encoding headers brV).1 = true then
    (.brotliD body, (detect_encoding headers brV).2)
  else if accepts.deflate = true ∧ (detect_encoding headers deflateV).1 = true then
    (.deflateD body, (detect_encoding headers deflateV).2)
  else (.plainText body, headers)

/-- `Decoder::decode`: the source only implements the `PlainText` arm
(the compressed arms do not compile without the feature flags); a
compressed decoder therefore has no defined decode result (`none`). -/
def Decoder.decode : Decoder → Option (List Nat)
  | .plainText t => some t
  | _ => none

/-! ## `HttpResponse` accessors from `response.rs` -/

/-- `HttpResponse::body`: returns a clone of the stored body bytes. -/
def HttpResponse.bodyFn (r : HttpResponse) : List Nat := r.body

/-- `HttpResponse::content_length`: `Some(self.body().len() as u64)`. -/
def HttpResponse.content_length (r : HttpResponse) : Option Nat :=
  some r.bodyFn.length

/-! ## `HttpStream::connect` from `http_stream.rs` -/

/-- The error kind tag set of the crate's `Error` type.  The `error.rs`
module is not among the provided sources; the tag set is modelled from the
specification's §7 list (`Builder`, `Request`, `Connect`, `Timeout`, `Io`,
`Decode`, `Redirect`, `Status`). -/
inductive Kind where
  | Builder
  | Request
  | Connect
  | Timeout
  | IoK
  | Decode
  | Redirect
  | Status
deriving DecidableEq, Repr

/-- `Error::new(kind, message)` from the crate's error module. -/
structure CrateError where
  kind : Kind
  message : Option (List Nat)
deriving DecidableEq, Repr

/-- The message string `"Failed to connect"` used by `HttpStream::connect`. -/
def failedToConnectMsg : List Nat :=
  [70, 97, 105, 108, 101, 100, 32, 116, 111, 32, 99, 111, 110, 110, 101, 99, 116]

/-- The URL scheme `https`. -/
def httpsV : List Nat := [104, 116, 116, 112, 115]

/-- The URL scheme `http`. -/
def httpV : List Nat := [104, 116, 116, 112]

/-- The two `HttpStream` variants of `http_stream.rs`. -/
inductive StreamKind where
  | tcp
  | tls
deriving DecidableEq, Repr

/-- Result of the underlying `TcpStream::connect` / `TlsStream::connect`
call (an external lunatic primitive): success or failure. -/
inductive ConnAttempt where
  | success
  | failure
deriving DecidableEq, Repr

/-- `HttpStream::connect` from `http_stream.rs`: an `https` scheme uses the
TLS path, anything else the TCP path; either failing underlying connect is
mapped to `Error::new(Kind::Builder, Some("Failed to connect"))`. -/
def HttpStream.connect (scheme : List Nat) (underlying : ConnAttempt) :
    Except CrateError StreamKind :=
  if scheme = httpsV then
    match underlying with
    | .success => .ok .tls
    | .failure => .error ⟨.Builder, some failedToConnectMsg⟩
  else
    match underlying with
    | .success => .ok .tcp
    | .failure => .error ⟨.Builder, some failedToConnectMsg⟩

/-! ## The redirect engine

Modelled from the spec: the redirect engine (`Client::execute`'s redirect
loop in `src/lunatic_impl/client.rs` together with `src/redirect.rs`) is
not among the provided sources — only its tests are — so the construction
of the follow-up request is modelled from specification §4.7 step 5. -/

/-- HTTP request methods. -/
inductive Method where
  | GET
  | POST
  | PUT
  | DELETE
  | PATCH
  | HEAD
  | OPTIONS
deriving DecidableEq, Repr

/-- Modelled from the spec: an origin triple (scheme, host, port) of a URL,
the data the redirect engine compares and rewrites. -/
structure SpecUrl where
  scheme : List Nat
  host : List Nat
  port : Nat
deriving DecidableEq, Repr

/-- Modelled from the spec: the request data the redirect engine rewrites. -/
structure SpecRequest where
  method : Method
  url : SpecUrl
  headers : HeaderMap
  body : List Nat
deriving DecidableEq, Repr

/-- Modelled from the spec (§4.7, glossary): same-origin comparison on the
(scheme, host, port) triple. -/
def sameOrigin (a b : SpecUrl) : Bool :=
  decide (a.scheme = b.scheme) && decide (a.host = b.host) && decide (a.port = b.port)

/-- The four sensitive header names scrubbed on cross-origin redirects. -/
def sensitiveHeaders : List (List Nat) :=
  [[97, 117, 116, 104, 111, 114, 105, 122, 97, 116, 105, 111, 110],
   [99, 111, 111, 107, 105, 101],
   [112, 114, 111, 120, 121, 45, 97, 117, 116, 104, 111, 114, 105, 122, 97, 116, 105, 111, 110],
   [119, 119, 119, 45, 97, 117, 116, 104, 101, 110, 116, 105, 99, 97, 116, 101]]

/-- Modelled from the spec (§4.7 step 5): for 301/302/303 a
POST/PUT/DELETE/PATCH request becomes a GET with the body dropped; for
307/308 method and body are preserved. -/
def redirectMethodBody (status : Nat) (m : Method) (body : List Nat) : Method × List Nat :=
  if status = 301 ∨ status = 302 ∨ status = 303 then
    match m with
    | .POST => (.GET, [])
    | .PUT => (.GET, [])
    | .DELETE => (.GET, [])
    | .PATCH => (.GET, [])
    | m => (m, body)
  else (m, body)

/-- Modelled from the spec (§4.7 step 5): headers of the follow-up request;
on a cross-origin hop the sensitive headers are removed. -/
def scrubHeaders (cross : Bool) (hs : HeaderMap) : HeaderMap :=
  if cross then hs.filter (fun p => decide (¬ p.1 ∈ sensitiveHeaders))
  else hs

/-- Modelled from the spec (§4.7 step 5): build the follow-up request of a
redirect hop from the previous request, the redirect status, and the
resolved Location URL. -/
def redirectNext (prev : SpecRequest) (status : Nat) (newUrl : SpecUrl) : SpecRequest :=
  let mb := redirectMethodBody status prev.method prev.body
  { method := mb.1
    url := newUrl
    headers := scrubHeaders (!sameOrigin prev.url newUrl) prev.headers
    body := mb.2 }

/-- Modelled from the spec (§4.4): the request encoder sets
`Content-Length` from `body.len()` when a body is present. -/
def contentLengthOf (body : List Nat) : Nat := body.length

/-! ## Well-formed chunked encodings

Used to state what a correctly framed chunked body is: a sequence of
(hex-size-line, data) pairs followed by the `0\r\n\r\n` terminator. -/

/-- A hexadecimal digit byte (`0`–`9`, `a`–`f`, `A`–`F`). -/
def IsHexByte (b : Nat) : Prop :=
  (48 ≤ b ∧ b ≤ 57) ∨ (97 ≤ b ∧ b ≤ 102) ∨ (65 ≤ b ∧ b ≤ 70)

instance (b : Nat) : Decidable (IsHexByte b) := by unfold IsHexByte; infer_instance

/-- Numeric value of a hexadecimal digit byte. -/
def hexVal (b : Nat) : Nat :=
  if b ≤ 57 then b - 48 else if b ≤ 70 then b - 55 else b - 87

/-- Value of a string of hexadecimal digit bytes (big-endian). -/
def hexValue (l : List Nat) : Nat :=
  l.foldl (fun a b => a * 16 + hexVal b) 0

/-- Wire encoding of one chunk: `<hex-size>\r\n<data>\r\n`. -/
def encChunk (p : List Nat × List Nat) : List Nat :=
  p.1 ++ 13 :: 10 :: (p.2 ++ [13, 10])

/-- Wire encoding of a full chunked body: the chunks followed by the
`0\r\n\r\n` terminator (no trailers). -/
def encChunks (l : List (List Nat × List Nat)) : List Nat :=
  (l.map encChunk).flatten ++ [48, 13, 10, 13, 10]

/-- A well-formed chunk: a nonempty hex size line of at most 16 digits whose
value is the length of the (nonempty) data. -/
def WfChunk (p : List Nat × List Nat) : Prop :=
  p.1 ≠ [] ∧ p.1.length ≤ 16 ∧ (∀ b ∈ p.1, IsHexByte b) ∧ hexValue p.1 = p.2.length ∧ p.2 ≠ []

instance (p : List Nat × List Nat) : Decidable (WfChunk p) := by unfold WfChunk; infer_instance

/-! ## Concrete inputs used by counterexamples and witnesses -/

/-- The head `HTTP/1.1 200 OK\r\nTransfer-Encoding: chunked\r\n\r\n`. -/
def headChunkedB : List Nat :=
  [72, 84, 84, 80, 47, 49, 46, 49, 32, 50, 48, 48, 32, 79, 75, 13, 10,
   84, 114, 97, 110, 115, 102, 101, 114, 45, 69, 110, 99, 111, 100, 105, 110, 103, 58, 32,
   99, 104, 117, 110, 107, 101, 100, 13, 10, 13, 10]

/-- The first chunked segment of the spec's seed test: `5\r\nHello\r\n7\r\n, Worl`. -/
def part1B : List Nat := [53, 13, 10, 72, 101, 108, 108, 111, 13, 10, 55, 13, 10, 44, 32, 87, 111, 114, 108]

/-- The second chunked segment of the spec's seed test: `d\r\n0\r\n\r\n`. -/
def part2B : List Nat := [100, 13, 10, 48, 13, 10, 13, 10]

/-- The decoded body `Hello, World`. -/
def helloWorldB : List Nat := [72, 101, 108, 108, 111, 44, 32, 87, 111, 114, 108, 100]

/-- A chunked payload whose terminating `\r\n` is not yet buffered:
`5\r\nHello\r\n0\r\n`. -/
def c1tailB : List Nat := [53, 13, 10, 72, 101, 108, 108, 111, 13, 10, 48, 13, 10]

/-- The head `HTTP/1.1 200 OK\r\nContent-Length: 5\r\n\r\n`. -/
def headCL5B : List Nat :=
  [72, 84, 84, 80, 47, 49, 46, 49, 32, 50, 48, 48, 32, 79, 75, 13, 10,
   67, 111, 110, 116, 101, 110, 116, 45, 76, 101, 110, 103, 116, 104, 58, 32, 53, 13, 10, 13, 10]

/-- The head `HTTP/1.1 200 OK\r\nContent-Length: 3\r\n\r\n`. -/
def headCL3B : List Nat :=
  [72, 84, 84, 80, 47, 49, 46, 49, 32, 50, 48, 48, 32, 79, 75, 13, 10,
   67, 111, 110, 116, 101, 110, 116, 45, 76, 101, 110, 103, 116, 104, 58, 32, 51, 13, 10, 13, 10]

/-- The head `HTTP/1.1 200 OK\r\n\r\n` (no framing headers at all). -/
def headPlainB : List Nat := [72, 84, 84, 80, 47, 49, 46, 49, 32, 50, 48, 48, 32, 79, 75, 13, 10, 13, 10]

/-- The bytes `Hello`. -/
def helloB : List Nat := [72, 101, 108, 108, 111]

/-- A truncated head: `HTTP/1.1 2`. -/
def partialHeadB : List Nat := [72, 84, 84, 80, 47, 49, 46, 49, 32, 50]

/-- The two well-formed chunks of the spec's seed test:
`("5", "Hello")` and `("7", ", World")`. -/
def seedChunks : List (List Nat × List Nat) :=
  [([53], [72, 101, 108, 108, 111]), ([55], [44, 32, 87, 111, 114, 108, 100])]

/-- An example origin `http://a.example:80`. -/
def exUrlA : SpecUrl := ⟨[104, 116, 116, 112], [97], 80⟩

/-- An example origin `http://b.example:80` (different host). -/
def exUrlB : SpecUrl := ⟨[104, 116, 116, 112], [98], 80⟩

/-- An example request carrying an `authorization` and a `cookie` header. -/
def exReqSensitive : SpecRequest :=
  { method := .GET
    url := exUrlA
    headers := [([97, 117, 116, 104, 111, 114, 105, 122, 97, 116, 105, 111, 110], [120]),
                ([99, 111, 111, 107, 105, 101], [121])]
    body := [] }

/-- An example `POST` request with body `Hello`. -/
def exReqPost : SpecRequest :=
  { method := .POST, url := exUrlA, headers := [], body := helloB }

/-! ## Claim-side predicates for the decoder selection -/

/-- Some `content-encoding` or `transfer-encoding` value equals the token
(the claim's matching condition). -/
def encodingMatches (h : HeaderMap) (tok : List Nat) : Prop :=
  (((getAll h contentEncodingK).any fun v => decide (v = tok)) ||
   ((getAll h transferEncodingK).any fun v => decide (v = tok))) = true

instance (h : HeaderMap) (tok : List Nat) : Decidable (encodingMatches h tok) := by
  unfold encodingMatches; infer_instance

/-- The claim's selection condition for a token: it matches and the first
`content-length` value is not `"0"`. -/
def encodingSelected (h : HeaderMap) (tok : List Nat) : Prop :=
  encodingMatches h tok ∧ ¬ getFirst h contentLengthK = some [48]

instance (h : HeaderMap) (tok : List Nat) : Decidable (encodingSelected h tok) := by
  unfold encodingSelected; infer_instance

/-! # Theorems -/

/-! ## C10: `content_length` is always the stored body's length -/

/-- C10: for every `HttpResponse`, `content_length()` returns
`Some(body.len())` — the length of the stored (already content-decoded)
body — and never `None`, independently of the headers (in particular of any
`content-length` header value). -/
theorem C10_content_length_is_body_length :
    ∀ r : HttpResponse,
      r.content_length = some r.body.length ∧ r.content_length ≠ none := by
  intro r
  refine ⟨rfl, ?_⟩
  simp [HttpResponse.content_length]

/-! ## C9: `HttpStream::connect` failures -/

/-- C9 counterexample: a failing TCP connect for an `http` URL yields an
error of kind `Builder` with message `"Failed to connect"`, not a
`Connect`-kind error carrying a subkind, host and port. -/
theorem C9_counterexample :
    HttpStream.connect httpV .failure =
      .error ⟨Kind.Builder, some failedToConnectMsg⟩ ∧
    Kind.Builder ≠ Kind.Connect := by
  exact ⟨rfl, by decide⟩

/-- C9 amended: for every URL scheme, when the underlying connect (TCP, or
TLS for `https`) fails, `HttpStream::connect` returns an error of kind
`Builder` with message `"Failed to connect"`, carrying no failure subkind
and no host or port. -/
theorem C9_amended (scheme : List Nat) :
    HttpStream.connect scheme .failure =
      .error ⟨Kind.Builder, some failedToConnectMsg⟩ := by
  unfold HttpStream.connect
  split <;> rfl

/-! ## C5 counterexample: no `UntilClose` framing exists -/

/-- C5 counterexample: a response with neither `Transfer-Encoding: chunked`
nor `Content-Length`, whose stream still holds the five bytes `Hello`,
parses to an *empty* body — the parser never reads until EOF. -/
theorem C5_counterexample :
    parse_response 20 headPlainB [helloB] [] =
      some (.ok { body := [], status := 200, version := 1, headers := [], url := [] }) ∧
    ([] : List Nat) ≠ helloB := by
  exact ⟨by decide, by decide⟩

/-! ## C2 counterexample: early closure panics instead of erroring -/

/-- C2 counterexample: a `Content-Length: 5` response whose stream closes
after delivering only the three body bytes `abc` makes `parse_response`
panic (the `read_exact` result is `unwrap`ped), instead of failing with
`TcpStreamClosed`. -/
theorem C2_counterexample :
    parse_response 20 (headCL5B ++ [97, 98, 99]) [] [] = some .crash ∧
    Outcome.crash ≠ Outcome.err .tcpStreamClosed := by
  exact ⟨by decide, by decide⟩

/-! ## C6 counterexample: trailing pipelined bytes are not returned -/

/-- C6 counterexample: a buffer holding a complete `Content-Length: 3`
response followed by three trailing pipelined bytes `XYZ` makes
`parse_response` panic (the trailing bytes underflow the
`content_length - buffered` subtraction); no response together with
trailing unconsumed bytes is ever returned — the result type
carries none. -/
theorem C6_counterexample :
    parse_response 20 (headCL3B ++ [97, 98, 99, 88, 89, 90]) [] [] = some .crash ∧
    Outcome.crash ≠
      Outcome.ok { body := [97, 98, 99], status := 200, version := 1,
                   headers := [(contentLengthK, [51])], url := [] } := by
  exact ⟨by decide, by decide⟩

/-! ## C1 counterexample: a split that breaks the chunked loop -/

/-- C1 counterexample: the well-formed chunked stream
`5\r\nHello\r\n0\r\n` + `\r\n` (payload `Hello`, with the final `\r\n`
of the terminator arriving in a later read) makes `parse_response` panic
(the chunk offset is advanced past the end of the buffer), so decoding is
not independent of how the bytes are split between the prefill buffer and
successive stream reads. -/
theorem C1_counterexample :
    parse_response 20 (headChunkedB ++ c1tailB) [[13, 10]] [] = some .crash ∧
    Outcome.crash ≠
      Outcome.ok { body := helloB, status := 200, version := 1,
                   headers := [(transferEncodingK, chunkedV)], url := [] } := by
  exact ⟨by decide, by decide⟩

/-! ## C3: redirect method/body rewriting (spec-modelled) -/

/-- C3: for every redirect with status 301/302/303 of a POST/PUT/DELETE/
PATCH request, the follow-up request is a `GET` with an empty body; for
status 307/308 the follow-up request preserves the original method and
body; in particular a `POST` with body `Hello` redirected with 307 is
resent as a `POST` with the same body, whose emitted `Content-Length`
is 5. -/
theorem C3_redirect_method_rewriting (m : Method) (status : Nat) (prev : SpecRequest) (u : SpecUrl) :
    ((m = .POST ∨ m = .PUT ∨ m = .DELETE ∨ m = .PATCH) →
      (status = 301 ∨ status = 302 ∨ status = 303) →
      (redirectNext { prev with method := m } status u).method = .GET ∧
      (redirectNext { prev with method := m } status u).body = []) ∧
    ((status = 307 ∨ status = 308) →
      (redirectNext prev status u).method = prev.method ∧
      (redirectNext prev status u).body = prev.body) ∧
    ((redirectNext exReqPost 307 u).method = .POST ∧
      (redirectNext exReqPost 307 u).body = helloB ∧
      contentLengthOf (redirectNext exReqPost 307 u).body = 5) := by
  refine ⟨?_, ?_, ?_, ?_, ?_⟩
  · rintro (rfl | rfl | rfl | rfl) (rfl | rfl | rfl) <;>
      simp [redirectNext, redirectMethodBody]
  · rintro (rfl | rfl) <;> simp [redirectNext, redirectMethodBody]
  · rfl
  · rfl
  · rfl

/-- C3 witness: concrete 301 and 307 hops of a `POST` with body `Hello`. -/
theorem C3_witness :
    (redirectNext { exReqPost with method := Method.POST } 301 exUrlA).method = Method.GET ∧
    (redirectNext { exReqPost with method := Method.POST } 301 exUrlA).body = [] ∧
    (redirectNext exReqPost 307 exUrlA).method = Method.POST ∧
    (redirectNext exReqPost 307 exUrlA).body = helloB := by
  refine ⟨?_, ?_, ?_, ?_⟩
  · exact ((C3_redirect_method_rewriting Method.POST 301 exReqPost exUrlA).1
      (Or.inl rfl) (Or.inl rfl)).1
  · exact ((C3_redirect_method_rewriting Method.POST 301 exReqPost exUrlA).1
      (Or.inl rfl) (Or.inl rfl)).2
  · exact ((C3_redirect_method_rewriting Method.POST 307 exReqPost exUrlA).2.1
      (Or.inl rfl)).1
  · exact ((C3_redirect_method_rewriting Method.POST 307 exReqPost exUrlA).2.1
      (Or.inl rfl)).2

/-! ## C4: sensitive header scrubbing (spec-modelled) -/

/-- Scrubbing removes every occurrence of a sensitive header name. -/
theorem scrub_no_sensitive (hs : HeaderMap) (n : List Nat) (hn : n ∈ sensitiveHeaders) :
    getAll (scrubHeaders true hs) n = [] ∧ getFirst (scrubHeaders true hs) n = none := by
  induction hs with
  | nil => exact ⟨rfl, rfl⟩
  | cons p t ih =>
    obtain ⟨ih1, ih2⟩ := ih
    by_cases hp : p.1 ∈ sensitiveHeaders
    · simpa [scrubHeaders, List.filter_cons, hp] using And.intro ih1 ih2
    · have hne : ¬ p.1 = n := fun h => hp (h ▸ hn)
      simp only [scrubHeaders, List.filter_cons, hp] at ih1 ih2 ⊢
      simpa [getAll, getFirst, List.filter_cons, List.find?, hne] using And.intro ih1 ih2

/-- C4: on every redirect hop to a different origin (scheme, host, port),
none of `authorization`, `cookie`, `proxy-authorization`,
`www-authenticate` occurs in the follow-up request's header map; since
every hop of a redirect chain builds its follow-up request this way, this
holds for every hop of every chain. -/
theorem C4_sensitive_header_scrubbing (r : SpecRequest) (s : Nat) (u : SpecUrl) (n : List Nat) :
    sameOrigin r.url u = false → n ∈ sensitiveHeaders →
      getAll (redirectNext r s u).headers n = [] ∧
      getFirst (redirectNext r s u).headers n = none := by
  intro hcross hn
  have h : (redirectNext r s u).headers = scrubHeaders true r.headers := by
    simp [redirectNext, hcross]
  rw [h]
  exact scrub_no_sensitive r.headers n hn

/-- C4 witness: a concrete cross-origin 302 hop of a request carrying
`authorization` and `cookie` headers. -/
theorem C4_witness :
    getAll (redirectNext exReqSensitive 302 exUrlB).headers
      [97, 117, 116, 104, 111, 114, 105, 122, 97, 116, 105, 111, 110] = [] ∧
    getFirst (redirectNext exReqSensitive 302 exUrlB).headers
      [99, 111, 111, 107, 105, 101] = none := by
  refine ⟨?_, ?_⟩
  · exact (C4_sensitive_header_scrubbing exReqSensitive 302 exUrlB
      [97, 117, 116, 104, 111, 114, 105, 122, 97, 116, 105, 111, 110]
      (by decide) (by decide)).1
  · exact (C4_sensitive_header_scrubbing exReqSensitive 302 exUrlB
      [99, 111, 111, 107, 105, 101] (by decide) (by decide)).2

/-! ## Helper lemmas about the parser components -/

/-- A found head terminator leaves at least four bytes in the buffer. -/
theorem findTerm_le (buf : List Nat) (i : Nat) (h : findTerm buf = some i) :
    i + 4 ≤ buf.length := by
  induction buf generalizing i with
  | nil => simp [findTerm] at h
  | cons b rest ih =>
    rw [findTerm] at h
    split at h
    · rename_i hc
      obtain ⟨-, htake⟩ := hc
      obtain rfl : i = 0 := by simpa using h.symm
      have : (rest.take 3).length = 3 := by rw [htake]; rfl
      simp only [List.length_take] at this
      simp only [List.length_cons]
      omega
    · obtain ⟨j, hj, rfl⟩ := Option.map_eq_some'.mp h
      have := ih j hj
      simp only [List.length_cons]
      omega

/-- A complete head parse returns an offset within the buffer. -/
theorem parseHead_offset_le (buf : List Nat) (v c : Nat)
    (hs : List (List Nat × List Nat)) (off : Nat)
    (h : parseHead buf = .complete v c hs off) : off ≤ buf.length := by
  unfold parseHead at h
  split at h
  · exact absurd h (by simp)
  · rename_i i hfind
    have hle := findTerm_le buf i hfind
    split at h
    · exact absurd h (by simp)
    · split at h
      · exact absurd h (by simp)
      · split at h
        · exact absurd h (by simp)
        · split at h
          · exact absurd h (by simp)
          · obtain ⟨-, -, -, rfl⟩ : v = _ ∧ c = _ ∧ hs = _ ∧ off = i + 4 := by
              cases h; exact ⟨rfl, rfl, rfl, rfl⟩
            exact hle

/-- `read_exact` delivers exactly the requested number of bytes. -/
theorem readExactSegs_length (s : NetStream) (k : Nat) (bs : List Nat) (s' : NetStream)
    (h : readExactSegs s k = some (bs, s')) : bs.length = k := by
  induction s generalizing k bs s' with
  | nil =>
    cases k with
    | zero => simp [readExactSegs] at h; simp [h.1.symm]
    | succ k => simp [readExactSegs] at h
  | cons seg rest ih =>
    cases k with
    | zero => simp [readExactSegs] at h; simp [h.1.symm]
    | succ k =>
      rw [readExactSegs] at h
      split at h
      · exact absurd h (by simp)
      · split at h
        · rename_i hlen
          obtain ⟨rfl, -⟩ : seg.take (k + 1) = bs ∧ _ = s' := by
            simpa using h
          simp [List.length_take]
          omega
        · rename_i hseg hlen
          split at h
          · exact absurd h (by simp)
          · rename_i bs' segs' hrec
            obtain ⟨rfl, -⟩ : seg ++ bs' = bs ∧ segs' = s' := by simpa using h
            have := ih _ _ _ hrec
            simp only [List.length_append, this]
            omega

/-- `read_exact` fails when the stream cannot deliver enough bytes. -/
theorem readExactSegs_none (s : NetStream) (k : Nat) (h : netAvail s < k) :
    readExactSegs s k = none := by
  induction s generalizing k with
  | nil =>
    cases k with
    | zero => simp [netAvail] at h
    | succ k => rfl
  | cons seg rest ih =>
    cases k with
    | zero => simp at h
    | succ k =>
      rw [readExactSegs]
      by_cases hseg : seg = []
      · simp [hseg]
      · rw [if_neg hseg]
        have havail : netAvail (seg :: rest) = seg.length + netAvail rest := by
          simp [netAvail, hseg]
        rw [havail] at h
        rw [if_neg (by omega)]
        rw [ih (k + 1 - seg.length) (by omega)]

/-- Wrapping subtraction agrees with truncated subtraction when it does not
underflow. -/
theorem usub_of_le (a b : Nat) (h : b ≤ a) : usub a b = a - b := by
  simp [usub, h]

/-- A completed head parse short-circuits the head-accumulation loop. -/
theorem readHead_complete (f : Nat) (buf : List Nat) (stream : NetStream)
    (v c : Nat) (hs : List (List Nat × List Nat)) (off : Nat)
    (h : parseHead buf = .complete v c hs off) :
    readHead (f + 1) buf stream = some (.ok (v, c, hs, off, buf, stream)) := by
  simp [readHead, h]

/-- A zero-byte read while the head is incomplete fails with the
closed-stream errors, split by whether any bytes were accumulated. -/
theorem readHead_eof (f : Nat) (buf : List Nat) (stream : NetStream) (s' : NetStream)
    (hp : parseHead buf = .partialH)
    (hr : netRead stream REQUEST_BUFFER_SIZE = ([], s')) :
    readHead (f + 1) buf stream =
      some (.error (if buf = [] then ParseResponseError.tcpStreamClosedWithoutData
                    else ParseResponseError.tcpStreamClosed)) := by
  rw [readHead, hp]
  simp only [hr]
  rw [if_pos trivial]
  split <;> rfl

/-- A read that grows the accumulated head buffer past `MAX_REQUEST_SIZE`
fails with `ResponseTooLarge`. -/
theorem readHead_too_large (f : Nat) (buf : List Nat) (stream : NetStream)
    (bs : List Nat) (s' : NetStream)
    (hp : parseHead buf = .partialH)
    (hr : netRead stream REQUEST_BUFFER_SIZE = (bs, s'))
    (hbs : bs ≠ [])
    (hlen : (buf ++ bs).length > MAX_REQUEST_SIZE) :
    readHead (f + 1) buf stream = some (.error .responseTooLarge) := by
  rw [readHead, hp]
  simp only [hr]
  rw [if_neg hbs, if_pos hlen]

/-- Lifting a head-loop error to `parse_response`. -/
theorem parse_response_of_readHead_error (fuel : Nat) (buf : List Nat)
    (stream : NetStream) (url : List Nat) (e : ParseResponseError)
    (h : readHead fuel buf stream = some (.error e)) :
    parse_response fuel buf stream url = some (.err e) := by
  unfold parse_response
  rw [h]

/-- Unfolding of `parse_response` once the head has parsed completely from
the prefilled buffer. -/
theorem parse_response_complete (f v code : Nat) (rh : List (List Nat × List Nat))
    (off : Nat) (buf : List Nat) (stream : NetStream) (url : List Nat)
    (hhead : parseHead buf = .complete v code rh off) :
    parse_response (f + 1) buf stream url =
      (if code < 100 ∨ 999 < code then some (.err .unknownCode)
       else if getFirst (rh.map fun p => (lowerBytes p.1, p.2)) transferEncodingK
            = some chunkedV then
         match chunkedLoop (f + 1) buf stream off [] with
         | none => none
         | some (.ok b) =>
           some (.ok { body := b, status := code, version := v,
                       headers := rh.map fun p => (lowerBytes p.1, p.2), url := url })
         | some .invalid => some (.err .invalidChunkSize)
         | some .crash => some .crash
       else
         match (getFirst (rh.map fun p => (lowerBytes p.1, p.2)) contentLengthK).bind
             parseUsize with
         | some n =>
           if (buf.drop off).length = n then
             some (.ok { body := buf.drop off, status := code, version := v,
                         headers := rh.map fun p => (lowerBytes p.1, p.2), url := url })
           else
             match readExactSegs stream (usub n (buf.drop off).length) with
             | none => some .crash
             | some (bytes, _) =>
               some (.ok { body := (buf ++ bytes).drop off, status := code, version := v,
                           headers := rh.map fun p => (lowerBytes p.1, p.2), url := url })
         | none =>
           some (.ok { body := [], status := code, version := v,
                       headers := rh.map fun p => (lowerBytes p.1, p.2), url := url })) := by
  unfold parse_response
  rw [readHead_complete f buf stream v code rh off hhead]

/-! ## C5: no-framing responses get an empty body -/

/-- C5 amended: for every response whose headers contain neither
`Transfer-Encoding: chunked` nor a parseable `Content-Length`,
`parse_response` returns immediately with an *empty* body — it never reads
the stream to EOF, regardless of the status code or the request method (the
source has no `UntilClose` or `NoBody` framing at all). -/
theorem C5_amended (f v code : Nat) (rh : List (List Nat × List Nat)) (off : Nat)
    (buf : List Nat) (stream : NetStream) (url : List Nat)
    (hhead : parseHead buf = .complete v code rh off)
    (h1 : 100 ≤ code) (h2 : code ≤ 999)
    (hte : getFirst (rh.map fun p => (lowerBytes p.1, p.2)) transferEncodingK ≠ some chunkedV)
    (hcl : (getFirst (rh.map fun p => (lowerBytes p.1, p.2)) contentLengthK).bind parseUsize
      = none) :
    parse_response (f + 1) buf stream url =
      some (.ok { body := [], status := code, version := v,
                  headers := rh.map fun p => (lowerBytes p.1, p.2), url := url }) := by
  rw [parse_response_complete f v code rh off buf stream url hhead]
  rw [if_neg (by omega), if_neg hte, hcl]

/-- C5 witness: a `200 OK` head with no framing headers and a stream still
holding `Hello` parses to the empty body. -/
theorem C5_witness :
    parse_response 20 headPlainB [helloB] [1] =
      some (.ok { body := [], status := 200, version := 1, headers := [], url := [1] }) := by
  exact C5_amended 19 1 200 [] 19 headPlainB [helloB] [1] (by decide)
    (by decide) (by decide) (by decide) (by decide)

/-! ## C2: fixed-length body framing -/

/-- C2 amended: when the headers carry `Content-Length: n` and no chunked
transfer-encoding, `parse_response` reads exactly `n` body bytes — the `n`
bytes following the head — whenever the buffer holds at most `n` body bytes
and the stream can deliver the shortfall; but when the stream closes before
delivering all `n` bytes, `parse_response` panics on the `unwrap`ped
`read_exact` error instead of returning `TcpStreamClosed`. -/
theorem C2_amended (f v code n : Nat) (rh : List (List Nat × List Nat)) (off : Nat)
    (buf : List Nat) (stream : NetStream) (url : List Nat)
    (hhead : parseHead buf = .complete v code rh off)
    (h1 : 100 ≤ code) (h2 : code ≤ 999)
    (hte : getFirst (rh.map fun p => (lowerBytes p.1, p.2)) transferEncodingK ≠ some chunkedV)
    (hcl : (getFirst (rh.map fun p => (lowerBytes p.1, p.2)) contentLengthK).bind parseUsize
      = some n) :
    (∀ bytes s', (buf.drop off).length ≤ n →
      readExactSegs stream (n - (buf.drop off).length) = some (bytes, s') →
      parse_response (f + 1) buf stream url =
        some (.ok { body := buf.drop off ++ bytes, status := code, version := v,
                    headers := rh.map fun p => (lowerBytes p.1, p.2), url := url }) ∧
      (buf.drop off ++ bytes).length = n) ∧
    ((buf.drop off).length < n → netAvail stream < n - (buf.drop off).length →
      parse_response (f + 1) buf stream url = some .crash) := by
  have hoff := parseHead_offset_le buf v code rh off hhead
  constructor
  · intro bytes s' hle hread
    have hblen : bytes.length = n - (buf.drop off).length :=
      readExactSegs_length stream _ bytes s' hread
    refine ⟨?_, by simp only [List.length_append]; omega⟩
    rw [parse_response_complete f v code rh off buf stream url hhead]
    rw [if_neg (by omega), if_neg hte]
    simp only [hcl]
    by_cases heq : (buf.drop off).length = n
    · obtain rfl : bytes = [] := by
        have hb0 : bytes.length = 0 := by omega
        simpa using hb0
      rw [if_pos heq, List.append_nil]
    · rw [if_neg heq, usub_of_le n _ hle]
      simp only [hread, List.drop_append_of_le_length hoff]
  · intro hlt havail
    rw [parse_response_complete f v code rh off buf stream url hhead]
    rw [if_neg (by omega), if_neg hte]
    simp only [hcl]
    rw [if_neg (by omega), usub_of_le n _ (by omega)]
    rw [readExactSegs_none stream _ havail]

/-- C2 witness: a `Content-Length: 5` response with two buffered body bytes
`ab` and three more bytes `cde` on the stream yields exactly the body
`abcde`; the same head with only three buffered bytes and a closed stream
makes the parser panic instead of erroring. -/
theorem C2_witness :
    parse_response 20 (headCL5B ++ [97, 98]) [[99, 100, 101]] [] =
      some (.ok { body := [97, 98, 99, 100, 101], status := 200, version := 1,
                  headers := [(contentLengthK, [53])], url := [] }) ∧
    parse_response 20 (headCL5B ++ [97, 98, 99]) [] [] = some .crash := by
  constructor
  · have h := ((C2_amended 19 1 200 5
      [([67, 111, 110, 116, 101, 110, 116, 45, 76, 101, 110, 103, 116, 104], [53])]
      38 (headCL5B ++ [97, 98]) [[99, 100, 101]] [] (by decide) (by decide) (by decide)
      (by decide) (by decide)).1 [99, 100, 101] [] (by decide) (by decide)).1
    exact h.trans (by decide)
  · exact (C2_amended 19 1 200 5
      [([67, 111, 110, 116, 101, 110, 116, 45, 76, 101, 110, 103, 116, 104], [53])]
      38 (headCL5B ++ [97, 98, 99]) [] [] (by decide) (by decide) (by decide)
      (by decide) (by decide)).2 (by decide) (by decide)

/-! ## C6: pipelined trailing bytes -/

/-- C6 amended: `parse_response` accepts leftover prefill bytes as input,
but its result type carries only the parsed response — trailing unconsumed
bytes are never returned to the caller; moreover, for a fixed-length body,
any trailing pipelined bytes buffered beyond `Content-Length` make the
parser panic: the `content_length - buffered` subtraction wraps around and
the subsequent `read_exact` of the huge count fails and is `unwrap`ped. -/
theorem C6_amended (f v code n : Nat) (rh : List (List Nat × List Nat)) (off : Nat)
    (buf : List Nat) (stream : NetStream) (url : List Nat)
    (hhead : parseHead buf = .complete v code rh off)
    (h1 : 100 ≤ code) (h2 : code ≤ 999)
    (hte : getFirst (rh.map fun p => (lowerBytes p.1, p.2)) transferEncodingK ≠ some chunkedV)
    (hcl : (getFirst (rh.map fun p => (lowerBytes p.1, p.2)) contentLengthK).bind parseUsize
      = some n)
    (hgt : n < (buf.drop off).length)
    (hav : netAvail stream < usub n (buf.drop off).length) :
    parse_response (f + 1) buf stream url = some .crash := by
  rw [parse_response_complete f v code rh off buf stream url hhead]
  rw [if_neg (by omega), if_neg hte]
  simp only [hcl]
  rw [if_neg (by omega)]
  rw [readExactSegs_none stream _ hav]

/-- C6 witness: a complete `Content-Length: 3` response followed by three
trailing pipelined bytes panics. -/
theorem C6_witness :
    parse_response 20 (headCL3B ++ [97, 98, 99, 88, 89, 90]) [] [] = some .crash := by
  exact C6_amended 19 1 200 3
    [([67, 111, 110, 116, 101, 110, 116, 45, 76, 101, 110, 103, 116, 104], [51])]
    38 (headCL3B ++ [97, 98, 99, 88, 89, 90]) [] [] (by decide) (by decide) (by decide)
    (by decide) (by decide) (by decide) (by decide)

/-! ## C8: head accumulation bounds and errors -/

/-- A buffer of zero bytes contains no head terminator. -/
theorem findTerm_replicate_zero (n : Nat) : findTerm (List.replicate n 0) = none := by
  induction n with
  | zero => rfl
  | succ n ih => simp [List.replicate_succ, findTerm, ih]

/-- A buffer of zero bytes never completes the head parse. -/
theorem parseHead_replicate_zero (n : Nat) : parseHead (List.replicate n 0) = .partialH := by
  simp [parseHead, findTerm_replicate_zero]

/-- C8: the head-accumulation loop uses `MAX_REQUEST_SIZE` = 10 MiB,
`REQUEST_BUFFER_SIZE` = 4 KiB read chunks and a `MAX_HEADERS` = 128-slot
header array; when a read returns zero bytes before the head completes,
parsing fails with `TcpStreamClosedWithoutData` if the accumulated buffer
is empty and `TcpStreamClosed` otherwise; when a read grows the buffer past
`MAX_REQUEST_SIZE`, parsing fails with `ResponseTooLarge`. -/
theorem C8_head_accumulation :
    (MAX_REQUEST_SIZE = 10 * 1024 * 1024 ∧ REQUEST_BUFFER_SIZE = 4096 ∧ MAX_HEADERS = 128) ∧
    (∀ (f : Nat) (stream : NetStream) (url : List Nat) (s' : NetStream),
      netRead stream REQUEST_BUFFER_SIZE = ([], s') →
      parse_response (f + 1) [] stream url = some (.err .tcpStreamClosedWithoutData)) ∧
    (∀ (f : Nat) (buf : List Nat) (stream : NetStream) (url : List Nat) (s' : NetStream),
      buf ≠ [] → parseHead buf = .partialH →
      netRead stream REQUEST_BUFFER_SIZE = ([], s') →
      parse_response (f + 1) buf stream url = some (.err .tcpStreamClosed)) ∧
    (∀ (f : Nat) (buf : List Nat) (stream : NetStream) (url : List Nat)
        (bs : List Nat) (s' : NetStream),
      parseHead buf = .partialH →
      netRead stream REQUEST_BUFFER_SIZE = (bs, s') → bs ≠ [] →
      (buf ++ bs).length > MAX_REQUEST_SIZE →
      parse_response (f + 1) buf stream url = some (.err .responseTooLarge)) := by
  refine ⟨⟨rfl, rfl, rfl⟩, ?_, ?_, ?_⟩
  · intro f stream url s' hr
    refine parse_response_of_readHead_error _ _ _ _ _ ?_
    have h := readHead_eof f [] stream s' (by rfl) hr
    simpa using h
  · intro f buf stream url s' hbuf hp hr
    refine parse_response_of_readHead_error _ _ _ _ _ ?_
    have h := readHead_eof f buf stream s' hp hr
    rw [if_neg hbuf] at h
    exact h
  · intro f buf stream url bs s' hp hr hbs hlen
    exact parse_response_of_readHead_error _ _ _ _ _
      (readHead_too_large f buf stream bs s' hp hr hbs hlen)

/-- C8 witness: the three failure modes at concrete inputs — an empty
buffer with a closed stream, a truncated head with a closed stream, and a
10 MiB buffer of zeros grown past the limit by one more byte. -/
theorem C8_witness :
    parse_response 20 [] [] [] = some (.err .tcpStreamClosedWithoutData) ∧
    parse_response 20 partialHeadB [] [] = some (.err .tcpStreamClosed) ∧
    parse_response 20 (List.replicate MAX_REQUEST_SIZE 0) [[1]] [] =
      some (.err .responseTooLarge) := by
  refine ⟨?_, ?_, ?_⟩
  · exact C8_head_accumulation.2.1 19 [] [] [] (by decide)
  · exact C8_head_accumulation.2.2.1 19 partialHeadB [] [] [] (by decide) (by decide)
      (by decide)
  · exact C8_head_accumulation.2.2.2 19 (List.replicate MAX_REQUEST_SIZE 0) [[1]] [] [1] []
      (parseHead_replicate_zero MAX_REQUEST_SIZE) (by decide) (by decide)
      (by rw [List.length_append, List.length_replicate]
          show MAX_REQUEST_SIZE + 1 > MAX_REQUEST_SIZE
          omega)

/-! ## C7: decoder selection -/

/-- `detect_encoding` selects a token exactly under the claim's condition,
removing `content-encoding` and `content-length` on selection and leaving
the headers unchanged otherwise. -/
theorem detect_encoding_spec (hm : HeaderMap) (tok : List Nat) :
    detect_encoding hm tok =
      if encodingSelected hm tok then
        (true, removeH (removeH hm contentEncodingK) contentLengthK)
      else (false, hm) := by
  unfold detect_encoding
  by_cases hmatch : encodingMatches hm tok
  · rcases hcl : getFirst hm contentLengthK with _ | cl
    · have hsel : encodingSelected hm tok := ⟨hmatch, by simp [hcl]⟩
      unfold encodingMatches at hmatch
      simp [hcl, hmatch, hsel]
    · by_cases hz : cl = [48]
      · subst hz
        have hnsel : ¬ encodingSelected hm tok := fun hs => hs.2 hcl
        unfold encodingMatches at hmatch
        simp [hcl, hmatch, hnsel]
      · have hsel : encodingSelected hm tok := ⟨hmatch, by simp [hcl, hz]⟩
        unfold encodingMatches at hmatch
        simp [hcl, hmatch, hz, hsel]
  · have hnsel : ¬ encodingSelected hm tok := fun hs => hmatch hs.1
    have hmatch' : (((getAll hm contentEncodingK).any fun v => decide (v = tok)) ||
        ((getAll hm transferEncodingK).any fun v => decide (v = tok))) = false := by
      unfold encodingMatches at hmatch
      exact Bool.eq_false_iff.mpr hmatch
    simp [hmatch', hnsel]

/-- The full priority cascade of `Decoder::detect` as one equation. -/
theorem detect_eq (h : HeaderMap) (body : List Nat) (a : Accepts) :
    Decoder.detect h body a =
      if a.gzip = true ∧ encodingSelected h gzipV then
        (.gzipD body, removeH (removeH h contentEncodingK) contentLengthK)
      else if a.brotli = true ∧ encodingSelected h brV then
        (.brotliD body, removeH (removeH h contentEncodingK) contentLengthK)
      else if a.deflate = true ∧ encodingSelected h deflateV then
        (.deflateD body, removeH (removeH h contentEncodingK) contentLengthK)
      else (.plainText body, h) := by
  unfold Decoder.detect
  simp only [detect_encoding_spec]
  by_cases h1 : encodingSelected h gzipV <;>
    by_cases h2 : encodingSelected h brV <;>
      by_cases h3 : encodingSelected h deflateV <;>
        simp [h1, h2, h3]

/-- C7: `Decoder::detect` tries gzip, then br, then deflate in that order,
each only when enabled; a token is selected exactly when some
`content-encoding` or `transfer-encoding` value equals it and
`content-length` is not `"0"`; on selection the `content-encoding` and
`content-length` headers are removed; a zero `content-length` yields the
plain-text decoder with unchanged headers; with no matching token the body
is returned unchanged. -/
theorem C7_decoder_detect (h : HeaderMap) (body : List Nat) (a : Accepts) :
    ((Decoder.detect h body a).1 = .gzipD body ↔
      a.gzip = true ∧ encodingSelected h gzipV) ∧
    ((Decoder.detect h body a).1 = .brotliD body ↔
      a.brotli = true ∧ encodingSelected h brV ∧
        ¬ (a.gzip = true ∧ encodingSelected h gzipV)) ∧
    ((Decoder.detect h body a).1 = .deflateD body ↔
      a.deflate = true ∧ encodingSelected h deflateV ∧
        ¬ (a.gzip = true ∧ encodingSelected h gzipV) ∧
        ¬ (a.brotli = true ∧ encodingSelected h brV)) ∧
    ((Decoder.detect h body a).1 ≠ .plainText body →
      (Decoder.detect h body a).2 = removeH (removeH h contentEncodingK) contentLengthK) ∧
    (getFirst h contentLengthK = some [48] →
      Decoder.detect h body a = (.plainText body, h)) ∧
    ((Decoder.detect h body a).1 = .plainText body →
      (Decoder.detect h body a).2 = h ∧
      Decoder.decode (Decoder.detect h body a).1 = some body) := by
  rw [detect_eq]
  by_cases hg : a.gzip = true ∧ encodingSelected h gzipV
  · rw [if_pos hg]
    exact ⟨⟨fun _ => hg, fun _ => rfl⟩,
      ⟨fun hq => absurd hq (by simp), fun hr => absurd hg hr.2.2⟩,
      ⟨fun hq => absurd hq (by simp), fun hr => absurd hg hr.2.2.1⟩,
      fun _ => rfl, fun hz => absurd hz hg.2.2,
      fun hq => absurd hq (by simp)⟩
  · rw [if_neg hg]
    by_cases hb : a.brotli = true ∧ encodingSelected h brV
    · rw [if_pos hb]
      exact ⟨⟨fun hq => absurd hq (by simp), fun hr => absurd hr hg⟩,
        ⟨fun _ => ⟨hb.1, hb.2, hg⟩, fun _ => rfl⟩,
        ⟨fun hq => absurd hq (by simp), fun hr => absurd hb hr.2.2.2⟩,
        fun _ => rfl, fun hz => absurd hz hb.2.2,
        fun hq => absurd hq (by simp)⟩
    · rw [if_neg hb]
      by_cases hd : a.deflate = true ∧ encodingSelected h deflateV
      · rw [if_pos hd]
        exact ⟨⟨fun hq => absurd hq (by simp), fun hr => absurd hr hg⟩,
          ⟨fun hq => absurd hq (by simp), fun hr => absurd ⟨hr.1, hr.2.1⟩ hb⟩,
          ⟨fun _ => ⟨hd.1, hd.2, hg, hb⟩, fun _ => rfl⟩,
          fun _ => rfl, fun hz => absurd hz hd.2.2,
          fun hq => absurd hq (by simp)⟩
      · rw [if_neg hd]
        exact ⟨⟨fun hq => absurd hq (by simp), fun hr => absurd hr hg⟩,
          ⟨fun hq => absurd hq (by simp), fun hr => absurd ⟨hr.1, hr.2.1⟩ hb⟩,
          ⟨fun hq => absurd hq (by simp), fun hr => absurd ⟨hr.1, hr.2.1⟩ hd⟩,
          fun hne => absurd rfl hne, fun _ => rfl, fun _ => ⟨rfl, rfl⟩⟩

/-- C7 witness: a gzip-encoded response with enabled gzip decoder selects
the gzip decoder and drops `content-encoding`/`content-length`; a
`content-length: 0` gzip response falls back to plain text with unchanged
headers. -/
theorem C7_witness :
    ((Decoder.detect [(contentEncodingK, gzipV), (contentLengthK, [53])] [1, 2]
        ⟨true, true, true⟩).1 = .gzipD [1, 2]) ∧
    ((Decoder.detect [(contentEncodingK, gzipV), (contentLengthK, [53])] [1, 2]
        ⟨true, true, true⟩).2 = []) ∧
    (Decoder.detect [(contentEncodingK, gzipV), (contentLengthK, [48])] [1, 2]
        ⟨true, true, true⟩ = (.plainText [1, 2], [(contentEncodingK, gzipV), (contentLengthK, [48])])) := by
  refine ⟨?_, ?_, ?_⟩
  · exact (C7_decoder_detect [(contentEncodingK, gzipV), (contentLengthK, [53])] [1, 2]
      ⟨true, true, true⟩).1.mpr ⟨rfl, by decide, by decide⟩
  · have h4 := (C7_decoder_detect [(contentEncodingK, gzipV), (contentLengthK, [53])] [1, 2]
      ⟨true, true, true⟩).2.2.2.1 (by
        rw [((C7_decoder_detect [(contentEncodingK, gzipV), (contentLengthK, [53])] [1, 2]
          ⟨true, true, true⟩).1.mpr ⟨rfl, by decide, by decide⟩)]
        decide)
    exact h4.trans (by decide)
  · exact (C7_decoder_detect [(contentEncodingK, gzipV), (contentLengthK, [48])] [1, 2]
      ⟨true, true, true⟩).2.2.2.2.1 (by decide)

/-! ## C1: chunked-body decoding -/

/-- One hex digit advances the chunk-size state machine, accumulating its
value. -/
theorem parseChunkSizeAux_hexstep (b : Nat) (l : List Nat) (pos size count : Nat)
    (hb : IsHexByte b) (hc : count ≤ 15) :
    parseChunkSizeAux (b :: l) pos size true false count =
      parseChunkSizeAux l (pos + 1) (size * 16 + hexVal b) true false (count + 1) := by
  have hv : hexVal b = if b ≤ 57 then b - 48 else if b ≤ 70 then b - 55 else b - 87 := rfl
  rcases hb with h | h | h
  · rw [parseChunkSizeAux, if_pos ⟨h, rfl⟩, if_neg (by omega)]
    rw [hv, if_pos h.2]
  · rw [parseChunkSizeAux, if_neg (fun hq => absurd hq.1.2 (by omega)),
      if_pos ⟨h, rfl⟩, if_neg (by omega)]
    rw [hv, if_neg (by omega), if_neg (by omega)]
  · rw [parseChunkSizeAux, if_neg (fun hq => absurd hq.1.2 (by omega)),
      if_neg (fun hq => absurd hq.1.1 (by omega)), if_pos ⟨h, rfl⟩, if_neg (by omega)]
    rw [hv, if_neg (by omega), if_pos (by omega)]

/-- A line of at most 16 hex digits followed by `\r\n` parses as a complete
chunk size: the consumed length is the line plus the CRLF, and the size is
the accumulated hex value. -/
theorem parseChunkSizeAux_hexLine (line : List Nat) :
    ∀ (rest : List Nat) (pos size count : Nat),
      (∀ b ∈ line, IsHexByte b) → count + line.length ≤ 16 →
      parseChunkSizeAux (line ++ 13 :: 10 :: rest) pos size true false count =
        .complete (pos + line.length + 2) (line.foldl (fun a b => a * 16 + hexVal b) size) := by
  induction line with
  | nil =>
    intro rest pos size count _ _
    rw [List.nil_append, parseChunkSizeAux,
      if_neg (fun hq => absurd hq.1.1 (by omega)),
      if_neg (fun hq => absurd hq.1.1 (by omega)),
      if_neg (fun hq => absurd hq.1.1 (by omega)),
      if_pos rfl, if_neg (by simp), if_pos (by simp)]
    simp
  | cons b bs ih =>
    intro rest pos size count hall hcount
    rw [List.cons_append,
      parseChunkSizeAux_hexstep b (bs ++ 13 :: 10 :: rest) pos size count
        (hall b (List.mem_cons_self b bs)) (by simp at hcount; omega),
      ih rest (pos + 1) (size * 16 + hexVal b) (count + 1)
        (fun x hx => hall x (List.mem_cons_of_mem b hx)) (by simp at hcount ⊢; omega)]
    rw [List.length_cons, List.foldl_cons]
    congr 1
    omega

/-- The chunked-body loop decodes a fully buffered well-formed chunked
encoding to the concatenation of the chunk data, for any stream and any
sufficient fuel. -/
theorem chunkedLoop_encChunks (l : List (List Nat × List Nat)) :
    ∀ (fuel : Nat) (pre acc : List Nat) (stream : NetStream),
      (∀ p ∈ l, WfChunk p) → l.length + 1 ≤ fuel →
      chunkedLoop fuel (pre ++ encChunks l) stream pre.length acc =
        some (.ok (acc ++ (l.map Prod.snd).flatten)) := by
  induction l with
  | nil =>
    intro fuel pre acc stream _ hfuel
    obtain ⟨f, rfl⟩ : ∃ f, fuel = f + 1 := ⟨fuel - 1, by omega⟩
    simp only [chunkedLoop]
    rw [if_neg (by rw [List.length_append]; omega)]
    rw [List.drop_left]
    have hpcs : parseChunkSize (encChunks []) = .complete 3 0 := by decide
    simp only [hpcs]
    have hpref : List.isPrefixOf [13, 10] ((pre ++ encChunks []).drop (pre.length + 3)) = true := by
      rw [List.drop_append]
      decide
    rw [if_pos ⟨trivial, hpref⟩]
    simp
  | cons p ps ih =>
    intro fuel pre acc stream hwf hfuel
    obtain ⟨f, rfl⟩ : ∃ f, fuel = f + 1 := ⟨fuel - 1, by omega⟩
    obtain ⟨line, data⟩ := p
    obtain ⟨hl0, hl16, hlhex, hlval, hd0⟩ := hwf (line, data) (List.mem_cons_self _ ps)
    have hl16' : line.length ≤ 16 := hl16
    have hlhex' : ∀ b ∈ line, IsHexByte b := hlhex
    have hlval' : hexValue line = data.length := hlval
    have hd0' : data ≠ [] := hd0
    have henc : encChunks ((line, data) :: ps) =
        line ++ 13 :: 10 :: (data ++ 13 :: 10 :: encChunks ps) := by
      simp [encChunks, encChunk, List.append_assoc]
    rw [henc]
    have hlen_buf : (pre ++ (line ++ 13 :: 10 :: (data ++ 13 :: 10 :: encChunks ps))).length
        = pre.length + line.length + 2 + data.length + 2 + (encChunks ps).length := by
      simp [List.length_append]
      omega
    simp only [chunkedLoop]
    rw [if_neg (by rw [hlen_buf]; omega)]
    rw [List.drop_left]
    have hpcs : parseChunkSize (line ++ 13 :: 10 :: (data ++ 13 :: 10 :: encChunks ps)) =
        .complete (line.length + 2) data.length := by
      unfold parseChunkSize
      rw [parseChunkSizeAux_hexLine line _ 0 0 0 hlhex' (by omega)]
      unfold hexValue at hlval'
      rw [hlval']
      congr 1
      omega
    simp only [hpcs]
    have hdlen : data.length ≠ 0 := by simpa using hd0'
    rw [if_neg (fun hq => hdlen hq.1)]
    have h1 : usub (pre ++ (line ++ 13 :: 10 :: (data ++ 13 :: 10 :: encChunks ps))).length
        (line.length + 2) = pre.length + data.length + 2 + (encChunks ps).length := by
      rw [usub_of_le _ _ (by rw [hlen_buf]; omega), hlen_buf]
      omega
    have h2 : usub (pre.length + data.length + 2 + (encChunks ps).length) pre.length
        = data.length + 2 + (encChunks ps).length := by
      rw [usub_of_le _ _ (by omega)]
      omega
    have h3 : usub (data.length + 2 + (encChunks ps).length) 2
        = data.length + (encChunks ps).length := by
      rw [usub_of_le _ _ (by omega)]
      omega
    rw [h1, h2, h3]
    rw [show data.length - (data.length + (encChunks ps).length) = 0 from by omega]
    rw [if_neg (by omega)]
    rw [if_neg (by rw [hlen_buf]; omega)]
    rw [List.drop_append, List.drop_append]
    have hdrop2 : (13 :: 10 :: (data ++ 13 :: 10 :: encChunks ps)).drop 2
        = data ++ 13 :: 10 :: encChunks ps := rfl
    rw [hdrop2]
    rw [List.take_left data (13 :: 10 :: encChunks ps)]
    have hre : pre ++ (line ++ 13 :: 10 :: (data ++ 13 :: 10 :: encChunks ps)) =
        (pre ++ line ++ 13 :: 10 :: (data ++ [13, 10])) ++ encChunks ps := by
      simp [List.append_assoc]
    have hoffeq : pre.length + (line.length + 2) + data.length + 2 =
        (pre ++ line ++ 13 :: 10 :: (data ++ [13, 10])).length := by
      simp [List.length_append]
      omega
    rw [hre, hoffeq]
    rw [ih f (pre ++ line ++ 13 :: 10 :: (data ++ [13, 10])) (acc ++ data) stream
      (fun q hq => hwf q (List.mem_cons_of_mem _ hq)) (by simp at hfuel ⊢; omega)]
    simp

/-- C1 amended: for every well-formed chunked body that is fully buffered
(prefill) after the head, `parse_response` returns exactly the
concatenation of the chunk payloads, for any stream contents; and the
spec's seed split — prefill `5\r\nHello\r\n7\r\n, Worl` with `d\r\n0\r\n\r\n`
arriving from the stream — decodes to `Hello, World`.  (The original
claim's "regardless of how the bytes are split" fails: see the
counterexample, where a split that separates the terminating `\r\n` from
the zero-size chunk makes the parser panic.) -/
theorem C1_amended (l : List (List Nat × List Nat)) (f v code : Nat)
    (rh : List (List Nat × List Nat)) (head : List Nat) (stream : NetStream) (url : List Nat)
    (hhead : parseHead (head ++ encChunks l) = .complete v code rh head.length)
    (h1 : 100 ≤ code) (h2 : code ≤ 999)
    (hte : getFirst (rh.map fun p => (lowerBytes p.1, p.2)) transferEncodingK = some chunkedV)
    (hwf : ∀ p ∈ l, WfChunk p) (hfuel : l.length + 1 ≤ f + 1) :
    parse_response (f + 1) (head ++ encChunks l) stream url =
      some (.ok { body := (l.map Prod.snd).flatten, status := code, version := v,
                  headers := rh.map fun p => (lowerBytes p.1, p.2), url := url }) ∧
    parse_response 20 (headChunkedB ++ part1B) [part2B] [] =
      some (.ok { body := helloWorldB, status := 200, version := 1,
                  headers := [(transferEncodingK, chunkedV)], url := [] }) := by
  constructor
  · rw [parse_response_complete f v code rh head.length (head ++ encChunks l) stream url hhead]
    rw [if_neg (by omega), if_pos hte]
    rw [chunkedLoop_encChunks l (f + 1) head [] stream hwf hfuel]
    simp
  · decide

/-- C1 witness: the seed chunks `("5", "Hello")`, `("7", ", World")`, fully
buffered after a chunked head, decode to `Hello, World`. -/
theorem C1_witness :
    parse_response 6 (headChunkedB ++ encChunks seedChunks) [] [] =
      some (.ok { body := helloWorldB, status := 200, version := 1,
                  headers := [(transferEncodingK, chunkedV)], url := [] }) := by
  have h := (C1_amended seedChunks 5 1 200
    [([84, 114, 97, 110, 115, 102, 101, 114, 45, 69, 110, 99, 111, 100, 105, 110, 103], chunkedV)]
    headChunkedB [] [] (by decide) (by decide) (by decide) (by decide) (by decide) (by decide)).1
  exact h.trans (by decide)
